import Mathlib

/-!
# Verification of the cobot-cli tool execution and chat loop

Shallow embedding of `src/core/tool-executor.ts` (the `executeToolCall`
function and the `Agent.chat` loop), `src/tools/registry.ts`,
`src/tools/validators.ts` and the tool classification lists of
`src/tools/schemas/index.ts`.

Effects are made explicit:
* callback invocations and registry dispatches are recorded in a trace of
  `Event`s, gated on whether the corresponding callback is wired, exactly
  as the source guards each invocation with a presence check;
* the mutation of the `options` object performed by `executeToolCall`
  is returned as the `options` field of its outcome;
* the OpenAI completion endpoint is modelled as a script
  (`List CompletionOutcome`) consumed one item per request, and the
  impure building blocks (`JSON.parse` on argument strings,
  `path.resolve`, the registered tool implementations, the approval and
  retry callbacks) are parameters of an environment record.
-/

namespace CobotCLI

/-- The tool-argument record (`Record<string, unknown>` in the source).
Only the `file_path` property is ever inspected by the executor; the
remaining properties flow through to the registry untouched and are kept
as an opaque association list. -/
structure ToolArgs where
  file_path : Option String := none
  other : List (String × String) := []
  deriving Repr, DecidableEq

/-- JavaScript truthiness of an optional string property: `undefined`
and the empty string are falsy, every other string is truthy. -/
def truthyStr : Option String → Bool
  | none => false
  | some s => s ≠ ""

/-- JavaScript truthiness of an optional boolean property
(`approvalResult.autoApproveSession`): truthy exactly for `some true`. -/
def truthyOptBool : Option Bool → Bool
  | some b => b
  | none => false

/-- Normalized tool result envelope (`ToolResult` of
`src/tools/files.ts`, re-exported by the registry). A missing
`userRejected` property is identified with `false`. -/
structure ToolResult where
  success : Bool
  error : Option String := none
  content : Option String := none
  userRejected : Bool := false
  deriving Repr, DecidableEq

/-- The `function` member of a tool call (`src/core/messages.ts`). -/
structure ToolCallFunction where
  name : String
  arguments : String
  deriving Repr, DecidableEq

/-- A tool call request (`ToolCall` of `src/core/messages.ts`). -/
structure ToolCall where
  id : String
  type : String
  function : ToolCallFunction
  deriving Repr, DecidableEq

/-- Resolution value of the approval callback
(`{approved: boolean; autoApproveSession?: boolean}`). -/
structure ApprovalResult where
  approved : Bool
  autoApproveSession : Option Bool := none
  deriving Repr, DecidableEq

/-- Observable events: callback invocations, registry dispatches,
completion requests. -/
inductive Event where
  | toolStart (name : String) (args : ToolArgs)
  | toolEnd (name : String) (result : ToolResult)
  | approvalRequested (name : String) (args : ToolArgs)
  | registryDispatch (name : String) (args : ToolArgs)
  | completionRequest
  | thinkingText (content : String)
  | finalMessage (content : String)
  | maxIterationsAsk (n : Nat)
  | errorAsk (message : String)
  deriving Repr, DecidableEq

/-- Environment: the impure building blocks the executor relies on.
`jsonParse` models `JSON.parse` applied to a non-empty argument string
(`Except.error` models a thrown exception), `resolvePath` models
`path.resolve`, and `toolImpl` models the registered tool functions of
`TOOL_REGISTRY` (their filesystem and process effects are abstracted
into a result). -/
structure Env where
  jsonParse : String → Except String ToolArgs
  resolvePath : String → String
  toolImpl : String → ToolArgs → ToolResult

/-- `ToolExecutorCallbacks`: for the two notification callbacks only
presence matters; the approval callback also carries its resolution
behaviour as a function. -/
structure Callbacks where
  onToolStart : Bool := false
  onToolEnd : Bool := false
  onToolApproval : Option (String → ToolArgs → ApprovalResult) := none

/-- `ToolExecutorOptions` of `src/core/tool-executor.ts`. -/
structure ToolExecutorOptions where
  sessionAutoApprove : Bool
  isInterrupted : Bool
  deriving Repr, DecidableEq

/-! ## Tool classification (`src/tools/schemas/index.ts`) -/

/-- Safe tools that can be auto-executed without approval. -/
def SAFE_TOOLS : List String :=
  ["read_file", "list_files", "search_files", "create_tasks",
   "update_tasks", "open_file"]

/-- Tools that require approval, unless auto-approval is enabled. -/
def APPROVAL_REQUIRED_TOOLS : List String :=
  ["create_file", "edit_file", "create_web_page", "convert_document",
   "process_image", "batch_process_images", "process_media",
   "get_clickhouse_schema", "execute_clickhouse_query"]

/-- Dangerous tools that always require approval. -/
def DANGEROUS_TOOLS : List String :=
  ["delete_file", "execute_command"]

/-! ## Validators (`src/tools/validators.ts`) -/

/-- The module-level read-files tracker (`sessionReadFilesTracker`):
`none` when `setReadFilesTracker` was never called, otherwise the set of
resolved paths passed to `read_file` in the session. -/
abbrev ReadTracker := Option (List String)

/-- `hasFileBeenReadBeforeEdit`: with no tracker wired up every edit is
allowed; otherwise the resolved path must be in the tracking set. -/
def hasFileBeenReadBeforeEdit (env : Env) (tracker : ReadTracker)
    (filePath : String) : Bool :=
  match tracker with
  | none => true
  | some set => set.contains (env.resolvePath filePath)

/-- `getReadBeforeEditErrorMessage`. -/
def getReadBeforeEditErrorMessage (filePath : String) : String :=
  "File must be read before editing. Use read_file tool first: " ++ filePath

/-! ## Registry (`src/tools/registry.ts`) -/

/-- The keys of `TOOL_REGISTRY`. -/
def TOOL_REGISTRY_NAMES : List String :=
  ["read_file", "create_file", "edit_file", "delete_file", "list_files",
   "open_file", "create_web_page", "search_files", "execute_command",
   "create_tasks", "update_tasks", "convert_document", "process_image",
   "batch_process_images", "process_media", "get_clickhouse_schema",
   "execute_clickhouse_query"]

/-- `executeTool`: unknown names produce a failure result without
dispatching; known names dispatch to the registered implementation
(recorded as a `registryDispatch` event). The body of `executeTool` is
wrapped in a try/catch converting exceptions into failure results, so
the function never throws; `Env.toolImpl` already folds that conversion
into a total result function. -/
def executeTool (env : Env) (toolName : String) (toolArgs : ToolArgs) :
    List Event × ToolResult :=
  if ¬ TOOL_REGISTRY_NAMES.contains toolName then
    ([], { success := false, error := some "Error: Unknown tool" })
  else
    ([Event.registryDispatch toolName toolArgs], env.toolImpl toolName toolArgs)

/-! ## Tool executor (`src/core/tool-executor.ts`, `executeToolCall`) -/

/-- Strip the hallucinated prefix, exactly as lines 28-31 of the source
(`startsWith` and `substring` on a JavaScript string, modelled on the
character sequence). -/
def normalizeToolName (name : String) : String :=
  if "repo_browser.".data.isPrefixOf name.data then
    String.mk (name.data.drop "repo_browser.".data.length)
  else name

/-- The argument-parsing step: an empty (falsy) argument string yields
the empty record, otherwise `JSON.parse` runs inside a try/catch. -/
def parseToolArguments (env : Env) (argsStr : String) : Except String ToolArgs :=
  if argsStr = "" then Except.ok {} else env.jsonParse argsStr

/-- Line 63 of the source. -/
def isDangerousTool (toolName : String) : Bool :=
  DANGEROUS_TOOLS.contains toolName

/-- Line 64 of the source. -/
def requiresApprovalTool (toolName : String) : Bool :=
  APPROVAL_REQUIRED_TOOLS.contains toolName

/-- Line 65 of the source: `needsApproval = isDangerous || requiresApproval`. -/
def needsApprovalFor (toolName : String) : Bool :=
  isDangerousTool toolName || requiresApprovalTool toolName

/-- Line 68 of the source:
`canAutoApprove = requiresApproval && !isDangerous && options.sessionAutoApprove`. -/
def canAutoApproveFor (toolName : String) (sessionAutoApprove : Bool) : Bool :=
  requiresApprovalTool toolName && !isDangerousTool toolName && sessionAutoApprove

/-- The default-rejection result of lines 103-108 of the source. -/
def canceledResult : ToolResult :=
  { error := some "Tool execution canceled by user",
    success := false, userRejected := true }

/-- The interruption result of lines 75-81 and 85-91 of the source. -/
def interruptedResult : ToolResult :=
  { error := some "Tool execution interrupted by user",
    success := false, userRejected := true }

/-- Outcome of one `executeToolCall` invocation: the returned result,
the final state of the (mutated) `options` object, and the trace of
observable events in order. -/
structure ExecOutcome where
  result : ToolResult
  options : ToolExecutorOptions
  trace : List Event
  deriving Repr, DecidableEq

/-- The `onToolEnd` notification, gated on presence of the callback. -/
def endTrace (cbs : Callbacks) (toolName : String) (result : ToolResult) :
    List Event :=
  if cbs.onToolEnd then [Event.toolEnd toolName result] else []

/-- Lines 62-120 of `src/core/tool-executor.ts`: the approval gate
followed by registry dispatch, entered once argument parsing and the
read-before-edit validation have passed. The second interruption check
of the source (after the approval await) re-reads the same
`options.isInterrupted` field; in this sequential embedding it is
subsumed by the first check and does not appear as a separate branch. -/
def executeToolCallApproval (env : Env) (toolName : String)
    (toolArguments : ToolArgs) (callbacks : Callbacks)
    (options : ToolExecutorOptions) (startTrace : List Event) : ExecOutcome :=
  let isDangerous := isDangerousTool toolName
  let requiresApproval := requiresApprovalTool toolName
  let needsApproval := isDangerous || requiresApproval
  let canAutoApprove := canAutoApproveFor toolName options.sessionAutoApprove
  if needsApproval && !canAutoApprove then
    match callbacks.onToolApproval with
    | some approvalFn =>
        if options.isInterrupted then
          { result := interruptedResult, options := options,
            trace := startTrace ++ endTrace callbacks toolName interruptedResult }
        else
          let approvalResult := approvalFn toolName toolArguments
          let askTrace := [Event.approvalRequested toolName toolArguments]
          let optionsAfter :=
            if truthyOptBool approvalResult.autoApproveSession &&
                requiresApproval && !isDangerous then
              { options with sessionAutoApprove := true }
            else options
          if ¬ approvalResult.approved then
            { result := canceledResult, options := optionsAfter,
              trace := startTrace ++ askTrace ++
                endTrace callbacks toolName canceledResult }
          else
            let dr := executeTool env toolName toolArguments
            { result := dr.2, options := optionsAfter,
              trace := startTrace ++ askTrace ++ dr.1 ++
                endTrace callbacks toolName dr.2 }
    | none =>
        { result := canceledResult, options := options,
          trace := startTrace ++ endTrace callbacks toolName canceledResult }
  else
    let dr := executeTool env toolName toolArguments
    { result := dr.2, options := options,
      trace := startTrace ++ dr.1 ++ endTrace callbacks toolName dr.2 }

/-- `executeToolCall`, translated branch by branch from lines 21-125 of
`src/core/tool-executor.ts`. -/
def executeToolCall (env : Env) (tracker : ReadTracker)
    (toolCallRequest : ToolCall) (callbacks : Callbacks)
    (options : ToolExecutorOptions) : ExecOutcome :=
  let toolName := normalizeToolName toolCallRequest.function.name
  match parseToolArguments env toolCallRequest.function.arguments with
  | Except.error e =>
      let msg := "Tool arguments truncated: " ++ e ++
        ". Please break this into smaller pieces or use shorter content."
      { result := { error := some msg, success := false },
        options := options, trace := [] }
  | Except.ok toolArguments =>
      let startTrace : List Event :=
        if callbacks.onToolStart then [Event.toolStart toolName toolArguments]
        else []
      if toolName = "edit_file" ∧ truthyStr toolArguments.file_path then
        let fp := toolArguments.file_path.getD ""
        if ¬ hasFileBeenReadBeforeEdit env tracker fp then
          let result : ToolResult :=
            { error := some (getReadBeforeEditErrorMessage fp), success := false }
          { result := result, options := options,
            trace := startTrace ++ endTrace callbacks toolName result }
        else
          executeToolCallApproval env toolName toolArguments callbacks options startTrace
      else
        executeToolCallApproval env toolName toolArguments callbacks options startTrace

/-! ## Agent chat loop (`src/core/tool-executor.ts`, class `Agent`) -/

/-- Conversation message (`Message` of `src/core/messages.ts`). -/
structure Message where
  role : String
  content : String
  tool_calls : Option (List ToolCall) := none
  tool_call_id : Option String := none
  deriving Repr, DecidableEq

/-- The per-session agent state touched by `chat`: the conversation log,
the `sessionAutoApprove` field, the interruption flag and the
module-level read-files tracker of the registry. `interrupt()` runs
concurrently in the real program; in this sequential embedding the
interruption flag only changes through `chat` resetting it. -/
structure AgentState where
  messages : List Message
  sessionAutoApprove : Bool := false
  isInterrupted : Bool := false
  tracker : ReadTracker := none
  deriving Repr, DecidableEq

/-- The callbacks wired through `setToolCallbacks`: presence flags for
the pure notifications, behaviour functions for the callbacks whose
resolution steers the loop. -/
structure AgentCallbacks where
  onToolStart : Bool := false
  onToolEnd : Bool := false
  onToolApproval : Option (String → ToolArgs → ApprovalResult) := none
  onThinkingText : Bool := false
  onFinalMessage : Bool := false
  onMaxIterations : Option (Nat → Bool) := none
  onError : Option (String → Bool) := none

/-- The message part of a successful completion response. In the OpenAI
response `tool_calls` is either absent or an array; an empty array is a
truthy value, so `some []` still enters the tool-call branch. -/
structure CompletionMessage where
  content : Option String := none
  reasoning : Option String := none
  tool_calls : Option (List ToolCall) := none
  deriving Repr, DecidableEq

/-- The body of the `error` property of an API error
(`apiError.error?.error` in the source). -/
structure ApiErrorBody where
  message : Option String := none
  code : Option String := none
  deriving Repr, DecidableEq

/-- A thrown `Error` instance: its `name`, `message`, and the optional
`status` and `error` properties distinguishing an `ApiError`. -/
structure JsError where
  name : String := "Error"
  message : String
  status : Option Nat := none
  errorField : Option ApiErrorBody := none
  deriving Repr, DecidableEq

/-- One scripted outcome of `client.chat.completions.create`: either a
response message or a thrown error. -/
inductive CompletionOutcome where
  | success (message : CompletionMessage)
  | failure (e : JsError)
  deriving Repr, DecidableEq

/-- JavaScript `String.prototype.includes`, used by the abort check of
lines 597-601. -/
def strIncludes (hay needle : String) : Bool :=
  decide (needle.data <:+: hay.data)

/-- Lines 597-601 continued: the abort classification itself. -/
def isAbortError (e : JsError) : Bool :=
  strIncludes e.message "Request was aborted" ||
  strIncludes e.message "The operation was aborted" ||
  e.name = "AbortError"

/-- Lines 614-635: build the error message and the 401 flag. The
`ApiError` branch is taken when the thrown error carries both a `status`
and an `error` property. -/
def classifyChatError (e : JsError) : String × Bool :=
  match e.status, e.errorField with
  | some st, some body =>
      match body.message with
      | some m =>
          let base := "API Error (" ++ toString st ++ "): " ++ m
          let full :=
            match body.code with
            | some c => base ++ " (Code: " ++ c ++ ")"
            | none => base
          (full, st = 401)
      | none => ("API Error (" ++ toString st ++ "): " ++ e.message, st = 401)
  | _, _ => ("Error: " ++ e.message, false)

/-- How a modelled `chat()` call ends. `outOfScript` is a model
artifact: the scripted list of completion outcomes ran out while the
loop still wanted another request. -/
inductive ChatTermination where
  | finalAnswer
  | interrupted
  | rejected (toolName : String)
  | fatalAuthError (message : String)
  | errorNoRetry
  | maxIterationsStop
  | outOfScript
  deriving Repr, DecidableEq

/-- Result of a modelled `chat()` call. -/
structure ChatResult where
  state : AgentState
  trace : List Event
  outcome : ChatTermination
  deriving Repr, DecidableEq

/-- Outcome of the tool-call batch loop (lines 517-564). -/
inductive BatchOutcome where
  | completed (st : AgentState) (trace : List Event)
  | interruptedBatch (st : AgentState) (trace : List Event)
  | rejectedBatch (toolName : String) (st : AgentState) (trace : List Event)
  deriving Repr, DecidableEq

/-- Models `JSON.stringify(result)` for the tool message content. No
claim inspects this string; only the envelope structure matters, so the
rendering is a straightforward field-by-field serialization. -/
def serializeToolResult (r : ToolResult) : String :=
  "\x7bsuccess:" ++ (if r.success then "true" else "false") ++
  (match r.error with | some e => ",error:" ++ e | none => "") ++
  (match r.content with | some c => ",content:" ++ c | none => "") ++
  (if r.userRejected then ",userRejected:true" else "") ++ "\x7d"

/-- The `tool` role message recording a tool result (lines 547-551). -/
def toolResultMessage (tc : ToolCall) (result : ToolResult) : Message :=
  { role := "tool", content := serializeToolResult result,
    tool_call_id := some tc.id }

/-- The terminal system note appended after a user rejection
(lines 558-561). -/
def rejectionNote (toolName : String) : Message :=
  { role := "system",
    content := "The user rejected the " ++ toolName ++
      " tool execution. The response has been terminated. Please wait for the user\x27s next instruction." }

/-- The fresh callbacks object `Agent.chat` builds for every tool call
(lines 533-537). -/
def batchCallbacks (cb : AgentCallbacks) : Callbacks :=
  { onToolStart := cb.onToolStart, onToolEnd := cb.onToolEnd,
    onToolApproval := cb.onToolApproval }

/-- The fresh `options` object `Agent.chat` builds for every tool call,
initialized from the agent fields (lines 539-542). -/
def batchOptions (st : AgentState) : ToolExecutorOptions :=
  { sessionAutoApprove := st.sessionAutoApprove,
    isInterrupted := st.isInterrupted }

/-- Lines 517-564: execute the requested tool calls sequentially. For
every call, `Agent.chat` builds a fresh callbacks object and a fresh
`options` object initialized from `this.sessionAutoApprove` and
`this.isInterrupted` (lines 533-542); the `options` object mutated by
`executeToolCall` is never read back, so the outcome field
`ExecOutcome.options` is dropped here exactly as in the source. -/
def runBatch (env : Env) (cb : AgentCallbacks) :
    List ToolCall → AgentState → BatchOutcome
  | [], st => BatchOutcome.completed st []
  | tc :: rest, st =>
      if st.isInterrupted then BatchOutcome.interruptedBatch st []
      else
        let eo := executeToolCall env st.tracker tc (batchCallbacks cb) (batchOptions st)
        let st1 := { st with
          messages := st.messages ++ [toolResultMessage tc eo.result] }
        if eo.result.userRejected then
          let toolName := tc.function.name
          BatchOutcome.rejectedBatch toolName
            { st1 with messages := st1.messages ++ [rejectionNote toolName] }
            eo.trace
        else
          match runBatch env cb rest st1 with
          | BatchOutcome.completed st2 tr =>
              BatchOutcome.completed st2 (eo.trace ++ tr)
          | BatchOutcome.interruptedBatch st2 tr =>
              BatchOutcome.interruptedBatch st2 (eo.trace ++ tr)
          | BatchOutcome.rejectedBatch n st2 tr =>
              BatchOutcome.rejectedBatch n st2 (eo.trace ++ tr)

/-- The assistant message appended before executing a tool-call batch
(lines 502-514). -/
def assistantToolMessage (msg : CompletionMessage) (toolCalls : List ToolCall) :
    Message :=
  { role := "assistant", content := msg.content.getD "",
    tool_calls := some toolCalls }

/-- Result of one inner-loop iteration: either the chat call ends, or
the loop continues with an updated iteration counter. -/
inductive StepOut where
  | halt (st : AgentState) (trace : List Event) (outcome : ChatTermination)
  | next (st : AgentState) (trace : List Event) (newIteration : Nat)
  deriving Repr, DecidableEq

/-- The fixed iteration bound (line 411). -/
def maxToolIterations : Nat := 50

/-- One iteration of the inner `while` loop of `chat` (lines 415-670):
the interruption pre-check, one completion request consuming the
scripted outcome `o`, and the handling of its response or error. -/
def chatStep (env : Env) (cb : AgentCallbacks) (o : CompletionOutcome)
    (iter : Nat) (st : AgentState) : StepOut :=
  if st.isInterrupted then StepOut.halt st [] ChatTermination.interrupted
  else
    match o with
    | CompletionOutcome.success msg =>
        match msg.tool_calls with
        | some toolCalls =>
            let thinkTrace : List Event :=
              if (truthyStr msg.content || truthyStr msg.reasoning) &&
                  cb.onThinkingText then
                [Event.thinkingText (msg.content.getD "")]
              else []
            let st1 := { st with messages := st.messages ++
              [assistantToolMessage msg toolCalls] }
            match runBatch env cb toolCalls st1 with
            | BatchOutcome.completed st2 tr =>
                StepOut.next st2
                  (Event.completionRequest :: thinkTrace ++ tr) (iter + 1)
            | BatchOutcome.interruptedBatch st2 tr =>
                StepOut.halt st2 (Event.completionRequest :: thinkTrace ++ tr)
                  ChatTermination.interrupted
            | BatchOutcome.rejectedBatch n st2 tr =>
                StepOut.halt st2 (Event.completionRequest :: thinkTrace ++ tr)
                  (ChatTermination.rejected n)
        | none =>
            let content := msg.content.getD ""
            let finalTrace : List Event :=
              if cb.onFinalMessage then [Event.finalMessage content] else []
            let st1 := { st with messages := st.messages ++
              [{ role := "assistant", content := content }] }
            StepOut.halt st1 (Event.completionRequest :: finalTrace)
              ChatTermination.finalAnswer
    | CompletionOutcome.failure e =>
        if isAbortError e then
          StepOut.halt st [Event.completionRequest] ChatTermination.interrupted
        else
          let errorMessage := (classifyChatError e).1
          let is401Error := (classifyChatError e).2
          if is401Error then
            StepOut.halt st [Event.completionRequest]
              (ChatTermination.fatalAuthError (errorMessage ++
                ". Please check your API key and use /login to set a valid key."))
          else
            match cb.onError with
            | some retryFn =>
                if retryFn errorMessage then
                  StepOut.next st
                    [Event.completionRequest, Event.errorAsk errorMessage]
                    (iter + 1)
                else
                  let st1 := { st with messages := st.messages ++
                    [{ role := "system", content := "Request failed with error: " ++
                        errorMessage ++ ". User chose not to retry." }] }
                  StepOut.halt st1
                    [Event.completionRequest, Event.errorAsk errorMessage]
                    ChatTermination.errorNoRetry
            | none =>
                let st1 := { st with messages := st.messages ++
                  [{ role := "system",
                     content := "Previous API request failed with error: " ++
                       errorMessage ++
                       ". Please try a different approach or ask the user for clarification." }] }
                StepOut.next st1 [Event.completionRequest] (iter + 1)

/-- The nested `while` loops of `chat` (lines 414-685). Before each
completion request the iteration budget is checked: once
`maxToolIterations` consecutive iterations have run, the
`onMaxIterations` callback is consulted (lines 672-684) and the counter
is reset to zero exactly when it resolves `true`. -/
def chatLoop (env : Env) (cb : AgentCallbacks) :
    List CompletionOutcome → Nat → AgentState → ChatResult
  | script, iter, st =>
      let gate : List Event × Option Nat :=
        if maxToolIterations ≤ iter then
          match cb.onMaxIterations with
          | some f =>
              ([Event.maxIterationsAsk maxToolIterations],
               if f maxToolIterations then some 0 else none)
          | none => ([], none)
        else ([], some iter)
      match gate with
      | (gateTrace, none) =>
          { state := st, trace := gateTrace,
            outcome := ChatTermination.maxIterationsStop }
      | (gateTrace, some iter0) =>
          match script with
          | [] =>
              { state := st, trace := gateTrace,
                outcome := ChatTermination.outOfScript }
          | o :: rest =>
              match chatStep env cb o iter0 st with
              | StepOut.halt st1 tr outc =>
                  { state := st1, trace := gateTrace ++ tr, outcome := outc }
              | StepOut.next st1 tr iter1 =>
                  let r := chatLoop env cb rest iter1 st1
                  { state := r.state, trace := gateTrace ++ tr ++ r.trace,
                    outcome := r.outcome }

/-- The state at the start of a `chat(userInput)` call: the
interruption flag is reset and the user message appended
(lines 382-409). -/
def chatStartState (userInput : String) (st : AgentState) : AgentState :=
  { st with
    isInterrupted := false,
    messages := st.messages ++ [{ role := "user", content := userInput }] }

/-- `chat(userInput)` after client initialization: reset the
interruption flag, append the user message, and run the iteration loop
starting from a zero counter. -/
def chat (env : Env) (cb : AgentCallbacks) (userInput : String)
    (script : List CompletionOutcome) (st : AgentState) : ChatResult :=
  chatLoop env cb script 0 (chatStartState userInput st)

/-! ## Event counting helpers -/

/-- Recognizer for completion-request events. -/
def Event.isCompletionRequest : Event → Bool
  | Event.completionRequest => true
  | _ => false

/-- Recognizer for max-iteration prompts. -/
def Event.isMaxAsk : Event → Bool
  | Event.maxIterationsAsk _ => true
  | _ => false

/-- Recognizer for approval-callback invocations. -/
def Event.isApprovalAsk : Event → Bool
  | Event.approvalRequested _ _ => true
  | _ => false

/-- Recognizer for registry dispatches. -/
def Event.isDispatch : Event → Bool
  | Event.registryDispatch _ _ => true
  | _ => false

/-- Number of completion requests in a trace. -/
def reqCount (tr : List Event) : Nat := tr.countP Event.isCompletionRequest

/-- Number of `onMaxIterations` invocations in a trace. -/
def maxAskCount (tr : List Event) : Nat := tr.countP Event.isMaxAsk

/-- Number of approval-callback invocations in a trace. -/
def approvalAskCount (tr : List Event) : Nat := tr.countP Event.isApprovalAsk

/-- Number of registry dispatches in a trace. -/
def dispatchCount (tr : List Event) : Nat := tr.countP Event.isDispatch

/-! ## Shared concrete instances for witnesses and counterexamples -/

/-- A concrete environment: argument strings parse to the empty record,
`path.resolve` prepends the working directory, and every registered tool
succeeds. -/
def sampleEnv : Env :=
  { jsonParse := fun _ => Except.ok {},
    resolvePath := fun s => "/cwd/" ++ s,
    toolImpl := fun _ _ => { success := true } }

/-! ## Claims -/

/-- C8: the read-before-edit check is fail-open.
`hasFileBeenReadBeforeEdit` returns `true` for every path when no
read-files tracker has been wired up; with a tracker it returns `true`
iff the resolved absolute form of the path is in the tracking set. -/
theorem claim_C8_read_before_edit_fail_open (env : Env) (path : String)
    (tracked : List String) :
    hasFileBeenReadBeforeEdit env none path = true ∧
    (hasFileBeenReadBeforeEdit env (some tracked) path = true ↔
      env.resolvePath path ∈ tracked) := by
  refine ⟨rfl, ?_⟩
  simp [hasFileBeenReadBeforeEdit, List.elem_iff]

/-- C9 counterexample: for an unknown tool name, `executeTool` does
return a non-throwing failure, but its error string is
`"Error: Unknown tool"`, not `"Unknown tool"` as claimed. -/
theorem claim_C9_counterexample :
    (executeTool sampleEnv "frobnicate" {}).2.success = false ∧
    (executeTool sampleEnv "frobnicate" {}).2.error = some "Error: Unknown tool" ∧
    ¬ (executeTool sampleEnv "frobnicate" {}).2.error = some "Unknown tool" := by
  decide

/-- C9 (amended): for every tool name not present in the registry,
`executeTool` returns `success = false` with error string
`"Error: Unknown tool"`, without dispatching to any implementation and
without throwing (the function is total). -/
theorem claim_C9_unknown_tool (env : Env) (toolName : String) (args : ToolArgs)
    (h : TOOL_REGISTRY_NAMES.contains toolName = false) :
    executeTool env toolName args =
      ([], { success := false, error := some "Error: Unknown tool" }) := by
  have hmem : toolName ∉ TOOL_REGISTRY_NAMES := by
    intro hmem
    rw [← List.elem_iff] at hmem
    simp [List.contains] at h
    simp [h] at hmem
  simp [executeTool, hmem]

/-- C9 witness: the amended theorem applied at a concrete unknown name. -/
theorem claim_C9_unknown_tool_witness :
    TOOL_REGISTRY_NAMES.contains "frobnicate" = false ∧
    executeTool sampleEnv "frobnicate" {} =
      ([], { success := false, error := some "Error: Unknown tool" }) :=
  ⟨by decide, claim_C9_unknown_tool sampleEnv "frobnicate" {} (by decide)⟩

/-- Helper: `endTrace` never contains an approval event. -/
theorem approvalAskCount_endTrace (cbs : Callbacks) (n : String) (r : ToolResult) :
    approvalAskCount (endTrace cbs n r) = 0 := by
  unfold endTrace approvalAskCount
  split <;> rfl

/-- Helper: counting approval events distributes over append. -/
theorem approvalAskCount_append (a b : List Event) :
    approvalAskCount (a ++ b) = approvalAskCount a + approvalAskCount b :=
  List.countP_append _ a b

/-- Helper: counting registry dispatches distributes over append. -/
theorem dispatchCount_append (a b : List Event) :
    dispatchCount (a ++ b) = dispatchCount a + dispatchCount b :=
  List.countP_append _ a b

/-- Helper: `endTrace` never contains a dispatch event. -/
theorem dispatchCount_endTrace (cbs : Callbacks) (n : String) (r : ToolResult) :
    dispatchCount (endTrace cbs n r) = 0 := by
  unfold endTrace dispatchCount
  split <;> rfl

/-- C1: for every tool call whose normalized name is in
`DANGEROUS_TOOLS`, `canAutoApprove` is `false` regardless of
`options.sessionAutoApprove`; consequently, once the arguments parse,
the approval callback is consulted exactly once when wired (and not
interrupted), and the call is rejected outright when no approval
callback is available. -/
theorem claim_C1_dangerous_never_auto_approved (env : Env) (tracker : ReadTracker)
    (tc : ToolCall) (cbs : Callbacks) (opts : ToolExecutorOptions) (args : ToolArgs)
    (hdanger : isDangerousTool (normalizeToolName tc.function.name) = true)
    (hparse : parseToolArguments env tc.function.arguments = Except.ok args) :
    canAutoApproveFor (normalizeToolName tc.function.name) opts.sessionAutoApprove = false ∧
    (cbs.onToolApproval = none →
      (executeToolCall env tracker tc cbs opts).result =
        { success := false, error := some "Tool execution canceled by user",
          userRejected := true }) ∧
    (∀ f, cbs.onToolApproval = some f → opts.isInterrupted = false →
      approvalAskCount (executeToolCall env tracker tc cbs opts).trace = 1) := by
  have hcan : canAutoApproveFor (normalizeToolName tc.function.name)
      opts.sessionAutoApprove = false := by
    simp [canAutoApproveFor, hdanger]
  have hcases : normalizeToolName tc.function.name = "delete_file" ∨
      normalizeToolName tc.function.name = "execute_command" := by
    have h := hdanger
    simp only [isDangerousTool, DANGEROUS_TOOLS, List.contains, List.elem_iff] at h
    simpa using h
  refine ⟨hcan, ?_, ?_⟩
  · intro hnone
    rcases hcases with h | h <;>
      simp [executeToolCall, hparse, h, executeToolCallApproval, hnone,
        isDangerousTool, requiresApprovalTool, canAutoApproveFor, canceledResult,
        DANGEROUS_TOOLS, APPROVAL_REQUIRED_TOOLS]
  · intro f hf hint
    rcases hcases with h | h <;>
    · cases happ : (f (normalizeToolName tc.function.name) args).approved <;>
      · rw [h] at happ
        cases hstart : cbs.onToolStart <;> cases hend : cbs.onToolEnd <;>
          simp [executeToolCall, hparse, h, executeToolCallApproval, hf, hint,
            hstart, hend, endTrace, isDangerousTool, requiresApprovalTool,
            canAutoApproveFor, executeTool, happ,
            List.countP_append, List.countP_cons, approvalAskCount,
            Event.isApprovalAsk, DANGEROUS_TOOLS, APPROVAL_REQUIRED_TOOLS,
            TOOL_REGISTRY_NAMES]

/-- A concrete approval callback that approves everything. -/
def approveAll : String → ToolArgs → ApprovalResult :=
  fun _ _ => { approved := true }

/-- A concrete `execute_command` tool call. -/
def execCmdCall : ToolCall :=
  { id := "1", type := "function",
    function := { name := "execute_command", arguments := "" } }

/-- C1 witness: with session auto-approve ON, a dangerous
`execute_command` call still invokes the approval callback. -/
theorem claim_C1_dangerous_never_auto_approved_witness :
    canAutoApproveFor "execute_command" true = false ∧
    approvalAskCount (executeToolCall sampleEnv none execCmdCall
      { onToolApproval := some approveAll }
      { sessionAutoApprove := true, isInterrupted := false }).trace = 1 := by
  have h := claim_C1_dangerous_never_auto_approved sampleEnv none execCmdCall
    { onToolApproval := some approveAll }
    { sessionAutoApprove := true, isInterrupted := false } {} (by decide) rfl
  exact ⟨h.1, h.2.2 approveAll rfl rfl⟩

/-- C10: when a tool call needs approval and cannot be auto-approved,
and no `onToolApproval` callback is provided, `executeToolCall` rejects
by default: it returns the canceled result with `userRejected = true`,
fires `onToolEnd` with that result when wired, and never dispatches to
the registry. The `hval` hypothesis states that the call passes the
read-before-edit validation (which runs before the approval gate). -/
theorem claim_C10_no_callback_rejects (env : Env) (tracker : ReadTracker)
    (tc : ToolCall) (cbs : Callbacks) (opts : ToolExecutorOptions) (args : ToolArgs)
    (hparse : parseToolArguments env tc.function.arguments = Except.ok args)
    (hnone : cbs.onToolApproval = none)
    (hneeds : needsApprovalFor (normalizeToolName tc.function.name) = true)
    (hnoauto : canAutoApproveFor (normalizeToolName tc.function.name)
      opts.sessionAutoApprove = false)
    (hval : normalizeToolName tc.function.name = "edit_file" →
      truthyStr args.file_path = true →
      hasFileBeenReadBeforeEdit env tracker (args.file_path.getD "") = true) :
    (executeToolCall env tracker tc cbs opts).result = canceledResult ∧
    dispatchCount (executeToolCall env tracker tc cbs opts).trace = 0 ∧
    (cbs.onToolEnd = true →
      Event.toolEnd (normalizeToolName tc.function.name) canceledResult
        ∈ (executeToolCall env tracker tc cbs opts).trace) := by
  have hgate : ((isDangerousTool (normalizeToolName tc.function.name) ||
      requiresApprovalTool (normalizeToolName tc.function.name)) &&
      !(canAutoApproveFor (normalizeToolName tc.function.name)
        opts.sessionAutoApprove)) = true := by
    rw [hnoauto]
    simpa [needsApprovalFor] using hneeds
  have key : executeToolCall env tracker tc cbs opts =
      { result := canceledResult,
        options := opts,
        trace :=
          (if cbs.onToolStart = true
            then [Event.toolStart (normalizeToolName tc.function.name) args] else []) ++
          endTrace cbs (normalizeToolName tc.function.name) canceledResult } := by
    by_cases hedit : normalizeToolName tc.function.name = "edit_file" ∧
        truthyStr args.file_path = true
    · have hread := hval hedit.1 hedit.2
      rw [hedit.1] at hgate
      simp [executeToolCall, hparse, hedit.1, hedit.2, hread,
        executeToolCallApproval, hgate, hnone]
    · simp [executeToolCall, hparse]
      rw [if_neg (by simpa using hedit)]
      simp [executeToolCallApproval, hgate, hnone]
  refine ⟨by rw [key], ?_, ?_⟩
  · rw [key]
    simp only [dispatchCount_append, dispatchCount_endTrace]
    split <;> rfl
  · intro hend
    rw [key]
    simp [endTrace, hend]

/-- C10 witness: an `execute_command` call with empty callbacks is
rejected by default. -/
theorem claim_C10_no_callback_rejects_witness :
    (executeToolCall sampleEnv none execCmdCall {}
      { sessionAutoApprove := true, isInterrupted := false }).result =
      canceledResult ∧
    dispatchCount (executeToolCall sampleEnv none execCmdCall {}
      { sessionAutoApprove := true, isInterrupted := false }).trace = 0 := by
  have h := claim_C10_no_callback_rejects sampleEnv none execCmdCall {}
    { sessionAutoApprove := true, isInterrupted := false } {} rfl rfl
    (by decide) (by decide) (by decide)
  exact ⟨h.1, h.2.1⟩

/-- Environment for the C3 counterexample: the argument string parses
to `file_path: ""`, and `path.resolve` maps every input (in particular
the empty string) to the working directory `/cwd`, which mirrors
the behaviour of `path.resolve("")` in Node. -/
def emptyPathEnv : Env :=
  { jsonParse := fun _ => Except.ok { file_path := some "" },
    resolvePath := fun _ => "/cwd",
    toolImpl := fun _ _ => { success := true } }

/-- A concrete `edit_file` tool call with a non-empty argument string. -/
def editCall : ToolCall :=
  { id := "1", type := "function",
    function := { name := "edit_file", arguments := "x" } }

/-- C3 counterexample: an `edit_file` call whose `file_path` is the
empty string. The tracker is wired up and the resolved path `/cwd` is
not in the tracking set, yet — because the empty string is falsy and
the validator is guarded by `toolArguments.file_path` — the check is
skipped: with session auto-approve on, the registry edit implementation
is dispatched and the call succeeds, contradicting the claim that every
such call fails without reaching the registry. -/
theorem claim_C3_counterexample :
    hasFileBeenReadBeforeEdit emptyPathEnv (some []) "" = false ∧
    dispatchCount (executeToolCall emptyPathEnv (some []) editCall {}
      { sessionAutoApprove := true, isInterrupted := false }).trace = 1 ∧
    (executeToolCall emptyPathEnv (some []) editCall {}
      { sessionAutoApprove := true, isInterrupted := false }).result.success = true := by
  decide

/-- C3 (amended): for every `edit_file` tool call whose `file_path` is
a non-empty string that resolves to a path not present in the session
read-tracking set (with a tracker wired up), `executeToolCall` returns
a failure with the descriptive read-before-edit message, fires
`onToolEnd` when wired, and invokes neither the approval callback nor
the registry. -/
theorem claim_C3_unread_edit_blocked (env : Env) (tracker : ReadTracker)
    (tc : ToolCall) (cbs : Callbacks) (opts : ToolExecutorOptions)
    (args : ToolArgs) (s : String) (tracked : List String)
    (hparse : parseToolArguments env tc.function.arguments = Except.ok args)
    (hname : normalizeToolName tc.function.name = "edit_file")
    (hfp : args.file_path = some s) (hs : s ≠ "")
    (htracker : tracker = some tracked)
    (hunread : tracked.contains (env.resolvePath s) = false) :
    (executeToolCall env tracker tc cbs opts).result =
      { success := false, error := some (getReadBeforeEditErrorMessage s) } ∧
    approvalAskCount (executeToolCall env tracker tc cbs opts).trace = 0 ∧
    dispatchCount (executeToolCall env tracker tc cbs opts).trace = 0 ∧
    (cbs.onToolEnd = true →
      Event.toolEnd "edit_file"
          { success := false, error := some (getReadBeforeEditErrorMessage s) }
        ∈ (executeToolCall env tracker tc cbs opts).trace) := by
  have key : executeToolCall env tracker tc cbs opts =
      { result := { success := false,
                    error := some (getReadBeforeEditErrorMessage s) },
        options := opts,
        trace :=
          (if cbs.onToolStart = true then [Event.toolStart "edit_file" args] else []) ++
          endTrace cbs "edit_file"
            { success := false,
              error := some (getReadBeforeEditErrorMessage s) } } := by
    have hmem : env.resolvePath s ∉ tracked := by
      intro hmem
      rw [← List.elem_iff] at hmem
      simp [List.contains] at hunread
      simp [hunread] at hmem
    simp [executeToolCall, hparse, hname, hfp, truthyStr, hs, htracker,
      hasFileBeenReadBeforeEdit, hmem]
  refine ⟨by rw [key], ?_, ?_, ?_⟩
  · rw [key]
    simp only [approvalAskCount_append, approvalAskCount_endTrace]
    split <;> rfl
  · rw [key]
    simp only [dispatchCount_append, dispatchCount_endTrace]
    split <;> rfl
  · intro hend
    rw [key]
    simp [endTrace, hend]

/-- An environment whose argument strings parse to
`file_path: "a.txt"`. -/
def pathEnv : Env :=
  { jsonParse := fun _ => Except.ok { file_path := some "a.txt" },
    resolvePath := fun s => "/cwd/" ++ s,
    toolImpl := fun _ _ => { success := true } }

/-- C3 witness: a concrete unread, non-empty path is blocked. -/
theorem claim_C3_unread_edit_blocked_witness :
    (executeToolCall pathEnv (some ["/cwd/other.txt"]) editCall
      { onToolEnd := true }
      { sessionAutoApprove := true, isInterrupted := false }).result =
      { success := false,
        error := some (getReadBeforeEditErrorMessage "a.txt") } ∧
    dispatchCount (executeToolCall pathEnv (some ["/cwd/other.txt"]) editCall
      { onToolEnd := true }
      { sessionAutoApprove := true, isInterrupted := false }).trace = 0 := by
  have h := claim_C3_unread_edit_blocked pathEnv (some ["/cwd/other.txt"])
    editCall
    { onToolEnd := true }
    { sessionAutoApprove := true, isInterrupted := false }
    { file_path := some "a.txt" } "a.txt" ["/cwd/other.txt"]
    rfl (by decide) rfl (by decide) rfl (by decide)
  exact ⟨h.1, h.2.2.1⟩

/-- Helper: the approval-and-dispatch stage only ever appends events
after the start-notification trace it is given, so that trace's head
event stays first. -/
theorem executeToolCallApproval_trace_cons (env : Env) (n : String)
    (args : ToolArgs) (cbs : Callbacks) (opts : ToolExecutorOptions)
    (e : Event) (s : List Event) :
    ∃ tr, (executeToolCallApproval env n args cbs opts (e :: s)).trace = e :: tr := by
  unfold executeToolCallApproval
  cases hap : cbs.onToolApproval <;> simp only [hap] <;> (repeat' split) <;>
    exact ⟨_, rfl⟩

/-- Environment for the C7 counterexample: `JSON.parse` throws on the
truncated argument string. -/
def badParseEnv : Env :=
  { jsonParse := fun _ => Except.error "Unexpected end of JSON input",
    resolvePath := fun s => s,
    toolImpl := fun _ _ => { success := true } }

/-- A tool call with a truncated (unparseable) argument string. -/
def truncatedCall : ToolCall :=
  { id := "1", type := "function",
    function := { name := "create_file", arguments := "x" } }

/-- C7 counterexample: with `onToolStart` wired, a call whose arguments
fail to parse produces an empty trace — `onToolStart` is never invoked,
because the source parses arguments (lines 34-43) before announcing the
tool start (lines 45-48), contradicting the claim that `onToolStart`
fires before argument parsing. -/
theorem claim_C7_counterexample :
    (executeToolCall badParseEnv none truncatedCall { onToolStart := true }
      { sessionAutoApprove := false, isInterrupted := false }).trace = [] ∧
    (executeToolCall badParseEnv none truncatedCall { onToolStart := true }
      { sessionAutoApprove := false, isInterrupted := false }).result.success
      = false := by
  decide

/-- C7 (amended): once argument parsing succeeds, `onToolStart` (when
wired) is announced before any other observable work — it is the first
event of the trace, preceding validation, approval and registry
dispatch; a call whose arguments fail to parse returns a failure result
with an empty trace, invoking neither `onToolStart` nor `onToolEnd`. -/
theorem claim_C7_tool_start_first (env : Env) (tracker : ReadTracker)
    (tc : ToolCall) (cbs : Callbacks) (opts : ToolExecutorOptions) :
    (∀ args, parseToolArguments env tc.function.arguments = Except.ok args →
      cbs.onToolStart = true →
      ∃ tr, (executeToolCall env tracker tc cbs opts).trace =
        Event.toolStart (normalizeToolName tc.function.name) args :: tr) ∧
    (∀ e, parseToolArguments env tc.function.arguments = Except.error e →
      (executeToolCall env tracker tc cbs opts).trace = [] ∧
      (executeToolCall env tracker tc cbs opts).result.success = false) := by
  constructor
  · intro args hparse hstart
    simp only [executeToolCall, hparse, hstart, if_true]
    split
    · split
      · exact ⟨_, rfl⟩
      · exact executeToolCallApproval_trace_cons env
          (normalizeToolName tc.function.name) args cbs opts
          (Event.toolStart (normalizeToolName tc.function.name) args) []
    · exact executeToolCallApproval_trace_cons env
        (normalizeToolName tc.function.name) args cbs opts
        (Event.toolStart (normalizeToolName tc.function.name) args) []
  · intro e hparse
    simp [executeToolCall, hparse]

/-- C7 witness: a concrete parsed call announces `onToolStart` first. -/
theorem claim_C7_tool_start_first_witness :
    ∃ tr, (executeToolCall sampleEnv none execCmdCall
      { onToolStart := true, onToolApproval := some approveAll }
      { sessionAutoApprove := false, isInterrupted := false }).trace =
      Event.toolStart "execute_command" {} :: tr :=
  (claim_C7_tool_start_first sampleEnv none execCmdCall
    { onToolStart := true, onToolApproval := some approveAll }
    { sessionAutoApprove := false, isInterrupted := false }).1 {} rfl rfl

/-- C5: when a completion call inside `chat()` fails with an API error
whose status is 401 (an error carrying both `status` and `error`
properties, and not classified as a user-interruption abort), the chat
turn terminates immediately with a fatal authentication error telling
the user to re-authenticate, without invoking `onError` and without
issuing further requests; any non-401 failure consults the `onError`
callback when wired. -/
theorem claim_C5_fatal_401 (env : Env) (cb : AgentCallbacks) (e : JsError)
    (rest : List CompletionOutcome) (iter : Nat) (st : AgentState)
    (hint : st.isInterrupted = false) (hiter : iter < maxToolIterations)
    (habort : isAbortError e = false) :
    (∀ body, e.status = some 401 → e.errorField = some body →
      chatLoop env cb (CompletionOutcome.failure e :: rest) iter st =
        { state := st, trace := [Event.completionRequest],
          outcome := ChatTermination.fatalAuthError ((classifyChatError e).1 ++
            ". Please check your API key and use /login to set a valid key.") }) ∧
    ((classifyChatError e).2 = false → ∀ f, cb.onError = some f →
      ∃ tr, (chatLoop env cb (CompletionOutcome.failure e :: rest) iter st).trace =
        Event.completionRequest :: Event.errorAsk (classifyChatError e).1 :: tr) := by
  have hgate : ¬ (maxToolIterations ≤ iter) := Nat.not_le.mpr hiter
  constructor
  · intro body h401 hbody
    have his401 : (classifyChatError e).2 = true := by
      cases hm : body.message <;> simp [classifyChatError, h401, hbody, hm]
    simp [chatLoop, hgate, chatStep, hint, habort, his401]
  · intro hnot401 f hf
    rw [chatLoop.eq_def]
    cases hretry : f (classifyChatError e).1 <;>
      simp [hgate, chatStep, hint, habort, hnot401, hf, hretry]

/-- A concrete 401 API error. -/
def auth401Error : JsError :=
  { message := "Unauthorized", status := some 401,
    errorField := some { message := some "Invalid API key" } }

/-- C5 witness: the fatal-401 branch applied at a concrete error. -/
theorem claim_C5_fatal_401_witness :
    chatLoop sampleEnv {} [CompletionOutcome.failure auth401Error] 0
      { messages := [] } =
      { state := { messages := [] }, trace := [Event.completionRequest],
        outcome := ChatTermination.fatalAuthError
          ((classifyChatError auth401Error).1 ++
            ". Please check your API key and use /login to set a valid key.") } :=
  (claim_C5_fatal_401 sampleEnv {} auth401Error [] 0 { messages := [] }
    rfl (by decide) (by decide)).1 { message := some "Invalid API key" } rfl rfl

/-- Helper: the batch loop processes an appended list by running the
first part and, only if it completes, continuing with the second. -/
theorem runBatch_append (env : Env) (cb : AgentCallbacks)
    (pre rest : List ToolCall) (st : AgentState) :
    runBatch env cb (pre ++ rest) st =
      match runBatch env cb pre st with
      | BatchOutcome.completed st1 tr1 =>
          (match runBatch env cb rest st1 with
           | BatchOutcome.completed st2 tr2 =>
               BatchOutcome.completed st2 (tr1 ++ tr2)
           | BatchOutcome.interruptedBatch st2 tr2 =>
               BatchOutcome.interruptedBatch st2 (tr1 ++ tr2)
           | BatchOutcome.rejectedBatch n st2 tr2 =>
               BatchOutcome.rejectedBatch n st2 (tr1 ++ tr2))
      | BatchOutcome.interruptedBatch st1 tr1 =>
          BatchOutcome.interruptedBatch st1 tr1
      | BatchOutcome.rejectedBatch n st1 tr1 =>
          BatchOutcome.rejectedBatch n st1 tr1 := by
  induction pre generalizing st with
  | nil =>
      simp only [List.nil_append, runBatch]
      cases h : runBatch env cb rest st <;> simp
  | cons tc pre ih =>
      rw [List.cons_append, runBatch, runBatch]
      by_cases hint : st.isInterrupted = true
      · simp [hint]
      · simp only [Bool.not_eq_true] at hint
        simp only [hint, Bool.false_eq_true, if_false]
        by_cases hrej : (executeToolCall env st.tracker tc (batchCallbacks cb)
            (batchOptions st)).result.userRejected = true
        · simp [hrej]
        · simp only [Bool.not_eq_true] at hrej
          simp only [hrej, Bool.false_eq_true, if_false]
          rw [ih]
          cases h1 : runBatch env cb pre
              { messages := st.messages ++
                  [toolResultMessage tc (executeToolCall env st.tracker tc
                    (batchCallbacks cb) (batchOptions st)).result],
                sessionAutoApprove := st.sessionAutoApprove,
                isInterrupted := false,
                tracker := st.tracker } with
          | completed st1 tr1 =>
              cases h2 : runBatch env cb rest st1 <;>
                simp [h2, List.append_assoc]
          | interruptedBatch st1 tr1 => simp
          | rejectedBatch n st1 tr1 => simp

/-- C4: a user rejection terminates the batch and the chat turn. If the
approval callback resolves `{approved:false}` for a call that reaches
the approval gate, that call returns the canceled result (with
`success=false` and `userRejected=true`); whenever a tool call in a
batch yields a `userRejected` result after a completed prefix, the
batch stops there — the agent appends the tool result message followed
by the terminal system note naming the rejected tool and the calls
after it are never examined — and the chat turn returns with outcome
`rejected` without issuing another completion request (the result does
not depend on the remaining script). -/
theorem claim_C4_rejection_stops_batch_and_turn (env : Env) (cb : AgentCallbacks) :
    (∀ tracker tc cbs opts args f,
      parseToolArguments env tc.function.arguments = Except.ok args →
      cbs.onToolApproval = some f →
      opts.isInterrupted = false →
      needsApprovalFor (normalizeToolName tc.function.name) = true →
      canAutoApproveFor (normalizeToolName tc.function.name)
        opts.sessionAutoApprove = false →
      (normalizeToolName tc.function.name = "edit_file" →
        truthyStr args.file_path = true →
        hasFileBeenReadBeforeEdit env tracker (args.file_path.getD "") = true) →
      (f (normalizeToolName tc.function.name) args).approved = false →
      (executeToolCall env tracker tc cbs opts).result = canceledResult) ∧
    (∀ pre tc post st st1 tr1,
      runBatch env cb pre st = BatchOutcome.completed st1 tr1 →
      st1.isInterrupted = false →
      (executeToolCall env st1.tracker tc (batchCallbacks cb)
        (batchOptions st1)).result.userRejected = true →
      runBatch env cb (pre ++ tc :: post) st =
        BatchOutcome.rejectedBatch tc.function.name
          { st1 with messages := (st1.messages ++
              [toolResultMessage tc (executeToolCall env st1.tracker tc
                (batchCallbacks cb) (batchOptions st1)).result]) ++
              [rejectionNote tc.function.name] }
          (tr1 ++ (executeToolCall env st1.tracker tc (batchCallbacks cb)
            (batchOptions st1)).trace)) ∧
    (∀ msg toolCalls rest iter st n st2 btr,
      st.isInterrupted = false → iter < maxToolIterations →
      msg.tool_calls = some toolCalls →
      runBatch env cb toolCalls
        { st with messages := st.messages ++ [assistantToolMessage msg toolCalls] }
        = BatchOutcome.rejectedBatch n st2 btr →
      chatLoop env cb (CompletionOutcome.success msg :: rest) iter st =
        { state := st2,
          trace := Event.completionRequest ::
            ((if (truthyStr msg.content || truthyStr msg.reasoning) &&
                cb.onThinkingText
              then [Event.thinkingText (msg.content.getD "")] else []) ++ btr),
          outcome := ChatTermination.rejected n }) := by
  refine ⟨?_, ?_, ?_⟩
  · intro tracker tc cbs opts args f hparse hf hint hneeds hnoauto hval happ
    have hgate : ((isDangerousTool (normalizeToolName tc.function.name) ||
        requiresApprovalTool (normalizeToolName tc.function.name)) &&
        !(canAutoApproveFor (normalizeToolName tc.function.name)
          opts.sessionAutoApprove)) = true := by
      rw [hnoauto]
      simpa [needsApprovalFor] using hneeds
    by_cases hedit : normalizeToolName tc.function.name = "edit_file" ∧
        truthyStr args.file_path = true
    · have hread := hval hedit.1 hedit.2
      rw [hedit.1] at hgate happ
      simp [executeToolCall, hparse, hedit.1, hedit.2, hread,
        executeToolCallApproval, hgate, hf, hint, happ]
    · simp only [executeToolCall, hparse]
      rw [if_neg (by simpa using hedit)]
      simp [executeToolCallApproval, hgate, hf, hint, happ]
  · intro pre tc post st st1 tr1 hpre hint hrej
    rw [runBatch_append, hpre]
    simp only [runBatch]
    simp [hint, hrej]
  · intro msg toolCalls rest iter st n st2 btr hint hiter hmsg hbatch
    have hgate : ¬ (maxToolIterations ≤ iter) := Nat.not_le.mpr hiter
    rw [hint] at hbatch
    rw [chatLoop.eq_def]
    simp [hgate, chatStep, hint, hmsg, hbatch]

/-- A concrete approval callback that rejects everything. -/
def rejectAll : String → ToolArgs → ApprovalResult :=
  fun _ _ => { approved := false }

/-- Agent callbacks wiring only the rejecting approval callback. -/
def cbReject : AgentCallbacks := { onToolApproval := some rejectAll }

/-- A concrete `create_file` tool call. -/
def createFileCall : ToolCall :=
  { id := "1", type := "function",
    function := { name := "create_file", arguments := "" } }

/-- The completion message requesting two `create_file` calls. -/
def twoCreateMsg : CompletionMessage :=
  { tool_calls := some [createFileCall, createFileCall] }

/-- C4 witness: a rejected first call terminates the turn — the second
call in the batch and the second scripted completion are never used,
the tool result and the terminal system note are appended, and exactly
one completion request was issued. -/
theorem claim_C4_rejection_stops_batch_and_turn_witness :
    chatLoop sampleEnv cbReject
      [CompletionOutcome.success twoCreateMsg,
       CompletionOutcome.success { content := some "done" }] 0 { messages := [] } =
      { state := { messages :=
          [assistantToolMessage twoCreateMsg [createFileCall, createFileCall],
           toolResultMessage createFileCall canceledResult,
           rejectionNote "create_file"] },
        trace := [Event.completionRequest,
          Event.approvalRequested "create_file" {}],
        outcome := ChatTermination.rejected "create_file" } := by
  have h := (claim_C4_rejection_stops_batch_and_turn sampleEnv cbReject).2.2
    twoCreateMsg [createFileCall, createFileCall]
    [CompletionOutcome.success { content := some "done" }] 0 { messages := [] }
    "create_file"
    { messages :=
        [assistantToolMessage twoCreateMsg [createFileCall, createFileCall],
         toolResultMessage createFileCall canceledResult,
         rejectionNote "create_file"] }
    [Event.approvalRequested "create_file" {}]
    rfl (by decide) rfl (by decide)
  simpa using h

/-- A concrete approval callback that approves and asks for session
auto-approval. -/
def autoApproveCb : String → ToolArgs → ApprovalResult :=
  fun _ _ => { approved := true, autoApproveSession := some true }

/-- Agent callbacks wiring only the session-auto-approving callback. -/
def cbAutoApprove : AgentCallbacks := { onToolApproval := some autoApproveCb }

/-- C2 (code bug): in a batch of two `create_file` calls whose first
approval resolves `{approved:true, autoApproveSession:true}`, the
approval callback is nevertheless invoked again for the second call
(the trace holds two approval requests, not one), and the agent's
`sessionAutoApprove` field is still `false` after the turn. The third
conjunct locates the defect: `executeToolCall` does set
`options.sessionAutoApprove` on the options object it was given, but
`Agent.chat` (lines 539-544) builds a fresh options object from
`this.sessionAutoApprove` for every call and never reads the mutation
back, so session auto-approve is not durably enabled. -/
theorem claim_C2_session_auto_approve_dropped :
    approvalAskCount (chat sampleEnv cbAutoApprove "hi"
      [CompletionOutcome.success twoCreateMsg,
       CompletionOutcome.success { content := some "done" }]
      { messages := [] }).trace = 2 ∧
    (chat sampleEnv cbAutoApprove "hi"
      [CompletionOutcome.success twoCreateMsg,
       CompletionOutcome.success { content := some "done" }]
      { messages := [] }).state.sessionAutoApprove = false ∧
    ((executeToolCall sampleEnv none createFileCall
      (batchCallbacks cbAutoApprove)
      { sessionAutoApprove := false, isInterrupted := false }).options).sessionAutoApprove = true := by
  decide

/-! ## Trace purity: tool-level traces contain no loop-control events -/

/-- A trace free of completion requests and max-iteration prompts. -/
def loopEventFree (tr : List Event) : Prop :=
  ∀ ev ∈ tr, ev.isCompletionRequest = false ∧ ev.isMaxAsk = false

/-- The empty trace is loop-event free. -/
theorem loopEventFree_nil : loopEventFree [] := by
  intro ev hev
  cases hev

/-- Appending preserves loop-event freedom. -/
theorem loopEventFree_append {a b : List Event} (ha : loopEventFree a)
    (hb : loopEventFree b) : loopEventFree (a ++ b) := by
  intro ev hev
  rcases List.mem_append.mp hev with h | h
  · exact ha ev h
  · exact hb ev h

/-- A single tool-start notification is loop-event free. -/
theorem loopEventFree_toolStart (n : String) (a : ToolArgs) :
    loopEventFree [Event.toolStart n a] := by
  intro ev hev
  simp_all
  subst hev
  exact ⟨rfl, rfl⟩

/-- Tool-start notifications are loop-event free. -/
theorem loopEventFree_startIf (c : Bool) (n : String) (a : ToolArgs) :
    loopEventFree (if c = true then [Event.toolStart n a] else []) := by
  cases c
  · exact loopEventFree_nil
  · exact loopEventFree_toolStart n a

/-- Tool-end notifications are loop-event free. -/
theorem loopEventFree_endTrace (cbs : Callbacks) (n : String) (r : ToolResult) :
    loopEventFree (endTrace cbs n r) := by
  unfold endTrace
  split
  · intro ev hev
    simp_all
    subst hev
    exact ⟨rfl, rfl⟩
  · exact loopEventFree_nil

/-- Approval requests are loop-event free. -/
theorem loopEventFree_ask (n : String) (a : ToolArgs) :
    loopEventFree [Event.approvalRequested n a] := by
  intro ev hev
  simp_all
  subst hev
  exact ⟨rfl, rfl⟩

/-- Registry dispatch traces are loop-event free. -/
theorem loopEventFree_executeTool (env : Env) (n : String) (a : ToolArgs) :
    loopEventFree (executeTool env n a).1 := by
  unfold executeTool
  split
  · exact loopEventFree_nil
  · intro ev hev
    simp_all
    subst hev
    exact ⟨rfl, rfl⟩

/-- The trace of one `executeToolCall` holds only tool lifecycle,
approval and dispatch events — never a completion request or a
max-iterations prompt. -/
theorem loopEventFree_executeToolCall (env : Env) (tracker : ReadTracker)
    (tc : ToolCall) (cbs : Callbacks) (opts : ToolExecutorOptions) :
    loopEventFree (executeToolCall env tracker tc cbs opts).trace := by
  have happroval : ∀ n args s, loopEventFree s →
      loopEventFree (executeToolCallApproval env n args cbs opts s).trace := by
    intro n args s hs
    unfold executeToolCallApproval
    cases hap : cbs.onToolApproval <;> simp only [hap] <;> (repeat' split) <;>
    · dsimp only
      repeat'
        first
        | exact hs
        | exact loopEventFree_ask _ _
        | exact loopEventFree_executeTool _ _ _
        | exact loopEventFree_endTrace _ _ _
        | apply loopEventFree_append
  unfold executeToolCall
  (repeat' split) <;>
  · repeat'
      first
      | exact loopEventFree_nil
      | exact loopEventFree_startIf _ _ _
      | exact loopEventFree_toolStart _ _
      | exact loopEventFree_endTrace _ _ _
      | apply happroval
      | apply loopEventFree_append
      | split
      | dsimp only

/-- The trace field of a batch outcome. -/
def BatchOutcome.traceOf : BatchOutcome → List Event
  | BatchOutcome.completed _ tr => tr
  | BatchOutcome.interruptedBatch _ tr => tr
  | BatchOutcome.rejectedBatch _ _ tr => tr

/-- Batch traces are concatenations of executor traces, hence free of
loop-control events. -/
theorem loopEventFree_runBatch (env : Env) (cb : AgentCallbacks)
    (calls : List ToolCall) : ∀ st : AgentState,
    loopEventFree (runBatch env cb calls st).traceOf := by
  induction calls with
  | nil => intro st; exact loopEventFree_nil
  | cons tc rest ih =>
      intro st
      rw [runBatch]
      dsimp only
      split
      · exact loopEventFree_nil
      · split
        · exact loopEventFree_executeToolCall env st.tracker tc
            (batchCallbacks cb) (batchOptions st)
        · have hrest := ih { st with messages := st.messages ++
            [toolResultMessage tc (executeToolCall env st.tracker tc
              (batchCallbacks cb) (batchOptions st)).result] }
          split <;>
          · rename_i hmatch
            rw [hmatch] at hrest
            exact loopEventFree_append
              (loopEventFree_executeToolCall env st.tracker tc
                (batchCallbacks cb) (batchOptions st)) hrest

/-- The trace of one inner-loop iteration. -/
def StepOut.traceOf : StepOut → List Event
  | StepOut.halt _ tr _ => tr
  | StepOut.next _ tr _ => tr

/-- A single thinking notification is loop-event free. -/
theorem loopEventFree_thinkIf (c : Bool) (s : String) :
    loopEventFree (if c = true then [Event.thinkingText s] else []) := by
  cases c
  · exact loopEventFree_nil
  · intro ev hev
    simp_all
    subst hev
    exact ⟨rfl, rfl⟩

/-- A single final-message notification is loop-event free. -/
theorem loopEventFree_finalIf (c : Bool) (s : String) :
    loopEventFree (if c = true then [Event.finalMessage s] else []) := by
  cases c
  · exact loopEventFree_nil
  · intro ev hev
    simp_all
    subst hev
    exact ⟨rfl, rfl⟩

/-- A single retry prompt is loop-event free. -/
theorem loopEventFree_errorAsk (s : String) :
    loopEventFree [Event.errorAsk s] := by
  intro ev hev
  simp_all
  subst hev
  exact ⟨rfl, rfl⟩

/-- Every inner-loop iteration emits either nothing (pre-request
interruption) or exactly one completion request followed by
non-loop-control events. -/
theorem chatStep_trace_shape (env : Env) (cb : AgentCallbacks)
    (o : CompletionOutcome) (iter : Nat) (st : AgentState) :
    (chatStep env cb o iter st).traceOf = [] ∨
    ∃ tr', (chatStep env cb o iter st).traceOf =
        Event.completionRequest :: tr' ∧ loopEventFree tr' := by
  unfold chatStep
  split
  · exact Or.inl rfl
  · split
    · rename_i msg
      cases hmc : msg.tool_calls with
      | none =>
          simp only [hmc]
          exact Or.inr ⟨_, rfl, loopEventFree_finalIf _ _⟩
      | some toolCalls =>
          simp only [hmc]
          refine Or.inr ?_
          have hbatch := loopEventFree_runBatch env cb toolCalls
            { st with messages := st.messages ++
              [assistantToolMessage msg toolCalls] }
          cases hb : runBatch env cb toolCalls
              { st with messages := st.messages ++
                [assistantToolMessage msg toolCalls] } with
          | completed st2 tr2 =>
              rw [hb] at hbatch
              exact ⟨_, rfl, loopEventFree_append
                (loopEventFree_thinkIf _ _) hbatch⟩
          | interruptedBatch st2 tr2 =>
              rw [hb] at hbatch
              exact ⟨_, rfl, loopEventFree_append
                (loopEventFree_thinkIf _ _) hbatch⟩
          | rejectedBatch n st2 tr2 =>
              rw [hb] at hbatch
              exact ⟨_, rfl, loopEventFree_append
                (loopEventFree_thinkIf _ _) hbatch⟩
    · rename_i e
      split
      · exact Or.inr ⟨[], rfl, loopEventFree_nil⟩
      · dsimp only
        split
        · exact Or.inr ⟨[], rfl, loopEventFree_nil⟩
        · split
          · split
            · exact Or.inr ⟨_, rfl, loopEventFree_errorAsk _⟩
            · exact Or.inr ⟨_, rfl, loopEventFree_errorAsk _⟩
          · exact Or.inr ⟨[], rfl, loopEventFree_nil⟩

/-- When an iteration continues the loop, the new counter is the old
one incremented and the iteration emitted exactly one completion
request followed by non-loop-control events. -/
theorem chatStep_next_shape (env : Env) (cb : AgentCallbacks)
    (o : CompletionOutcome) (iter : Nat) (st : AgentState)
    (st' : AgentState) (tr : List Event) (i' : Nat)
    (h : chatStep env cb o iter st = StepOut.next st' tr i') :
    i' = iter + 1 ∧
    ∃ tr', tr = Event.completionRequest :: tr' ∧ loopEventFree tr' := by
  have hshape := chatStep_trace_shape env cb o iter st
  rw [h] at hshape
  have hiter : i' = iter + 1 := by
    unfold chatStep at h
    repeat' first
    | split at h
    | dsimp only at h
    all_goals cases h
    all_goals rfl
  refine ⟨hiter, ?_⟩
  rcases hshape with h0 | ⟨tr', htr', hfree⟩
  · exfalso
    have htr0 : tr = [] := h0
    subst htr0
    unfold chatStep at h
    repeat' first
    | split at h
    | dsimp only at h
    all_goals cases h
  · exact ⟨tr', htr', hfree⟩

/-- Loop-event-free traces contribute nothing to either loop count. -/
theorem loopEventFree_counts {tr : List Event} (h : loopEventFree tr) :
    reqCount tr = 0 ∧ maxAskCount tr = 0 := by
  constructor
  · exact List.countP_eq_zero.mpr fun a ha => by simp [(h a ha).1]
  · exact List.countP_eq_zero.mpr fun a ha => by simp [(h a ha).2]

/-- Counting a prefix never exceeds counting the whole list. -/
theorem countP_take_le (p : Event → Bool) (l : List Event) (n : Nat) :
    (l.take n).countP p ≤ l.countP p :=
  (List.take_sublist n l).countP_le p

/-- Unfolding: the gate stops the loop when `onMaxIterations` is absent. -/
theorem chatLoop_gate_none (env : Env) (cb : AgentCallbacks)
    (script : List CompletionOutcome) (iter : Nat) (st : AgentState)
    (hc : maxToolIterations ≤ iter) (hm : cb.onMaxIterations = none) :
    chatLoop env cb script iter st =
      { state := st, trace := [], outcome := ChatTermination.maxIterationsStop } := by
  rw [chatLoop.eq_def]
  simp [hc, hm]

/-- Unfolding: the gate stops the loop when `onMaxIterations` declines. -/
theorem chatLoop_gate_decline (env : Env) (cb : AgentCallbacks)
    (script : List CompletionOutcome) (iter : Nat) (st : AgentState)
    (f : Nat → Bool)
    (hc : maxToolIterations ≤ iter) (hm : cb.onMaxIterations = some f)
    (hf : f maxToolIterations = false) :
    chatLoop env cb script iter st =
      { state := st, trace := [Event.maxIterationsAsk maxToolIterations],
        outcome := ChatTermination.maxIterationsStop } := by
  rw [chatLoop.eq_def]
  simp [hc, hm, hf]

/-- Unfolding: the gate authorizes continuation but the script ends. -/
theorem chatLoop_gate_continue_nil (env : Env) (cb : AgentCallbacks)
    (iter : Nat) (st : AgentState) (f : Nat → Bool)
    (hc : maxToolIterations ≤ iter) (hm : cb.onMaxIterations = some f)
    (hf : f maxToolIterations = true) :
    chatLoop env cb [] iter st =
      { state := st, trace := [Event.maxIterationsAsk maxToolIterations],
        outcome := ChatTermination.outOfScript } := by
  rw [chatLoop.eq_def]
  simp [hc, hm, hf]

/-- Unfolding: gate passes, counter resets, the step halts. -/
theorem chatLoop_gate_continue_cons_halt (env : Env) (cb : AgentCallbacks)
    (o : CompletionOutcome) (rest : List CompletionOutcome)
    (iter : Nat) (st : AgentState) (f : Nat → Bool)
    (st1 : AgentState) (tr : List Event) (outc : ChatTermination)
    (hc : maxToolIterations ≤ iter) (hm : cb.onMaxIterations = some f)
    (hf : f maxToolIterations = true)
    (hstep : chatStep env cb o 0 st = StepOut.halt st1 tr outc) :
    chatLoop env cb (o :: rest) iter st =
      { state := st1, trace := Event.maxIterationsAsk maxToolIterations :: tr,
        outcome := outc } := by
  rw [chatLoop.eq_def]
  simp [hc, hm, hf, hstep]

/-- Unfolding: gate passes, counter resets, the step continues. -/
theorem chatLoop_gate_continue_cons_next (env : Env) (cb : AgentCallbacks)
    (o : CompletionOutcome) (rest : List CompletionOutcome)
    (iter : Nat) (st : AgentState) (f : Nat → Bool)
    (st1 : AgentState) (tr : List Event) (i1 : Nat)
    (hc : maxToolIterations ≤ iter) (hm : cb.onMaxIterations = some f)
    (hf : f maxToolIterations = true)
    (hstep : chatStep env cb o 0 st = StepOut.next st1 tr i1) :
    chatLoop env cb (o :: rest) iter st =
      { state := (chatLoop env cb rest i1 st1).state,
        trace := Event.maxIterationsAsk maxToolIterations ::
          (tr ++ (chatLoop env cb rest i1 st1).trace),
        outcome := (chatLoop env cb rest i1 st1).outcome } := by
  rw [chatLoop.eq_def]
  simp [hc, hm, hf, hstep]

/-- Unfolding: below the gate, an empty script ends the loop. -/
theorem chatLoop_no_gate_nil (env : Env) (cb : AgentCallbacks)
    (iter : Nat) (st : AgentState) (hc : ¬ maxToolIterations ≤ iter) :
    chatLoop env cb [] iter st =
      { state := st, trace := [], outcome := ChatTermination.outOfScript } := by
  rw [chatLoop.eq_def]
  simp [hc]

/-- Unfolding: below the gate, a halting step ends the loop. -/
theorem chatLoop_cons_halt (env : Env) (cb : AgentCallbacks)
    (o : CompletionOutcome) (rest : List CompletionOutcome)
    (iter : Nat) (st : AgentState)
    (st1 : AgentState) (tr : List Event) (outc : ChatTermination)
    (hc : ¬ maxToolIterations ≤ iter)
    (hstep : chatStep env cb o iter st = StepOut.halt st1 tr outc) :
    chatLoop env cb (o :: rest) iter st =
      { state := st1, trace := tr, outcome := outc } := by
  rw [chatLoop.eq_def]
  simp [hc, hstep]

/-- Unfolding: below the gate, a continuing step recurses. -/
theorem chatLoop_cons_next (env : Env) (cb : AgentCallbacks)
    (o : CompletionOutcome) (rest : List CompletionOutcome)
    (iter : Nat) (st : AgentState)
    (st1 : AgentState) (tr : List Event) (i1 : Nat)
    (hc : ¬ maxToolIterations ≤ iter)
    (hstep : chatStep env cb o iter st = StepOut.next st1 tr i1) :
    chatLoop env cb (o :: rest) iter st =
      { state := (chatLoop env cb rest i1 st1).state,
        trace := tr ++ (chatLoop env cb rest i1 st1).trace,
        outcome := (chatLoop env cb rest i1 st1).outcome } := by
  rw [chatLoop.eq_def]
  simp [hc, hstep]

/-- Prefixes of loop-event-free traces stay loop-event free. -/
theorem loopEventFree_take {tr : List Event} (h : loopEventFree tr) (n : Nat) :
    loopEventFree (tr.take n) :=
  fun ev hev => h ev (List.take_subset n tr hev)

/-- Counting requests: empty trace. -/
theorem reqCount_nil : reqCount [] = 0 := rfl

/-- Counting prompts: empty trace. -/
theorem maxAskCount_nil : maxAskCount [] = 0 := rfl

/-- Counting requests: a leading completion request. -/
theorem reqCount_cons_req (l : List Event) :
    reqCount (Event.completionRequest :: l) = reqCount l + 1 := by
  simp [reqCount, List.countP_cons, Event.isCompletionRequest]

/-- Counting requests: a leading max-iterations prompt. -/
theorem reqCount_cons_max (k : Nat) (l : List Event) :
    reqCount (Event.maxIterationsAsk k :: l) = reqCount l := by
  simp [reqCount, List.countP_cons, Event.isCompletionRequest]

/-- Counting prompts: a leading completion request. -/
theorem maxAskCount_cons_req (l : List Event) :
    maxAskCount (Event.completionRequest :: l) = maxAskCount l := by
  simp [maxAskCount, List.countP_cons, Event.isMaxAsk]

/-- Counting prompts: a leading max-iterations prompt. -/
theorem maxAskCount_cons_max (k : Nat) (l : List Event) :
    maxAskCount (Event.maxIterationsAsk k :: l) = maxAskCount l + 1 := by
  simp [maxAskCount, List.countP_cons, Event.isMaxAsk]

/-- Taking from a loop-event-free block followed by a tail counts only
the tail. -/
theorem counts_take_concat {tr' : List Event} (hfree : loopEventFree tr')
    (rtr : List Event) (n : Nat) :
    reqCount ((tr' ++ rtr).take n) = reqCount (rtr.take (n - tr'.length)) ∧
    maxAskCount ((tr' ++ rtr).take n) =
      maxAskCount (rtr.take (n - tr'.length)) := by
  rw [List.take_append_eq_append_take]
  have hsub := loopEventFree_counts (loopEventFree_take hfree n)
  constructor
  · rw [reqCount, List.countP_append, ← reqCount, ← reqCount, hsub.1,
      Nat.zero_add]
  · rw [maxAskCount, List.countP_append, ← maxAskCount, ← maxAskCount, hsub.2,
      Nat.zero_add]

/-- The central iteration-budget invariant of the chat loop: over every
prefix of the event trace, the number of completion requests never
exceeds the remaining budget plus `maxToolIterations` for every
`onMaxIterations` prompt answered, and conversely every prompt is
preceded by a full budget's worth of requests. -/
theorem chatLoop_count_invariant (env : Env) (cb : AgentCallbacks) :
    ∀ (script : List CompletionOutcome) (iter : Nat) (st : AgentState),
      iter ≤ maxToolIterations → ∀ n : Nat,
      reqCount (((chatLoop env cb script iter st).trace).take n) ≤
        (maxToolIterations - iter) +
          maxToolIterations *
            maxAskCount (((chatLoop env cb script iter st).trace).take n) ∧
      maxToolIterations *
          maxAskCount (((chatLoop env cb script iter st).trace).take n) ≤
        iter + reqCount (((chatLoop env cb script iter st).trace).take n) := by
  intro script
  induction script with
  | nil =>
      intro iter st hiter n
      by_cases hc : maxToolIterations ≤ iter
      · cases hm : cb.onMaxIterations with
        | none =>
            rw [chatLoop_gate_none env cb [] iter st hc hm]
            simp [reqCount_nil, maxAskCount_nil]
        | some f =>
            cases hf : f maxToolIterations
            · rw [chatLoop_gate_decline env cb [] iter st f hc hm hf]
              cases n with
              | zero => simp [reqCount_nil, maxAskCount_nil]
              | succ m =>
                  simp only [List.take_succ_cons, List.take_nil,
                    reqCount_cons_max, maxAskCount_cons_max,
                    reqCount_nil, maxAskCount_nil, maxToolIterations] at *
                  omega
            · rw [chatLoop_gate_continue_nil env cb iter st f hc hm hf]
              cases n with
              | zero => simp [reqCount_nil, maxAskCount_nil]
              | succ m =>
                  simp only [List.take_succ_cons, List.take_nil,
                    reqCount_cons_max, maxAskCount_cons_max,
                    reqCount_nil, maxAskCount_nil, maxToolIterations] at *
                  omega
      · rw [chatLoop_no_gate_nil env cb iter st hc]
        simp [reqCount_nil, maxAskCount_nil]
  | cons o rest ih =>
      intro iter st hiter n
      by_cases hc : maxToolIterations ≤ iter
      · cases hm : cb.onMaxIterations with
        | none =>
            rw [chatLoop_gate_none env cb (o :: rest) iter st hc hm]
            simp [reqCount_nil, maxAskCount_nil]
        | some f =>
            cases hf : f maxToolIterations
            · rw [chatLoop_gate_decline env cb (o :: rest) iter st f hc hm hf]
              cases n with
              | zero => simp [reqCount_nil, maxAskCount_nil]
              | succ m =>
                  simp only [List.take_succ_cons, List.take_nil,
                    reqCount_cons_max, maxAskCount_cons_max,
                    reqCount_nil, maxAskCount_nil, maxToolIterations] at *
                  omega
            · cases hstep : chatStep env cb o 0 st with
              | halt st1 tr outc =>
                  rw [chatLoop_gate_continue_cons_halt env cb o rest iter st f
                    st1 tr outc hc hm hf hstep]
                  have hsh := chatStep_trace_shape env cb o 0 st
                  rw [hstep] at hsh
                  simp only [StepOut.traceOf] at hsh
                  rcases hsh with htr | ⟨tr', htr, hfree⟩ <;> subst htr
                  · cases n with
                    | zero => simp [reqCount_nil, maxAskCount_nil]
                    | succ m =>
                        simp only [List.take_succ_cons, List.take_nil,
                          reqCount_cons_max, maxAskCount_cons_max,
                          reqCount_nil, maxAskCount_nil, maxToolIterations] at *
                        omega
                  · obtain ⟨hr0, hm0⟩ := loopEventFree_counts hfree
                    cases n with
                    | zero => simp [reqCount_nil, maxAskCount_nil]
                    | succ m =>
                        cases m with
                        | zero =>
                            simp only [List.take_succ_cons, List.take_zero,
                              reqCount_cons_max, maxAskCount_cons_max,
                              reqCount_nil, maxAskCount_nil,
                              maxToolIterations] at *
                            omega
                        | succ k =>
                            have hrk : reqCount (tr'.take k) = 0 :=
                              Nat.le_zero.mp (hr0 ▸ countP_take_le _ tr' k)
                            have hmk : maxAskCount (tr'.take k) = 0 :=
                              Nat.le_zero.mp (hm0 ▸ countP_take_le _ tr' k)
                            simp only [List.take_succ_cons,
                              reqCount_cons_max, maxAskCount_cons_max,
                              reqCount_cons_req, maxAskCount_cons_req,
                              hrk, hmk, maxToolIterations] at *
                            omega
              | next st1 tr i1 =>
                  obtain ⟨hi1, tr', htr, hfree⟩ :=
                    chatStep_next_shape env cb o 0 st st1 tr i1 hstep
                  subst hi1
                  subst htr
                  rw [chatLoop_gate_continue_cons_next env cb o rest iter st f
                    st1 _ _ hc hm hf hstep]
                  simp only [List.cons_append]
                  have hIH := ih (0 + 1) st1 (by simp [maxToolIterations])
                  cases n with
                  | zero => simp [reqCount_nil, maxAskCount_nil]
                  | succ m =>
                      cases m with
                      | zero =>
                          simp only [List.take_succ_cons, List.take_zero,
                            reqCount_cons_max, maxAskCount_cons_max,
                            reqCount_nil, maxAskCount_nil,
                            maxToolIterations] at *
                          omega
                      | succ k =>
                          obtain ⟨hd1, hd2⟩ := counts_take_concat hfree
                            (chatLoop env cb rest (0 + 1) st1).trace k
                          have hIHk := hIH (k - tr'.length)
                          simp only [List.take_succ_cons,
                            reqCount_cons_max, maxAskCount_cons_max,
                            reqCount_cons_req, maxAskCount_cons_req,
                            hd1, hd2, maxToolIterations] at *
                          omega
      · cases hstep : chatStep env cb o iter st with
        | halt st1 tr outc =>
            rw [chatLoop_cons_halt env cb o rest iter st st1 tr outc hc hstep]
            have hsh := chatStep_trace_shape env cb o iter st
            rw [hstep] at hsh
            simp only [StepOut.traceOf] at hsh
            rcases hsh with htr | ⟨tr', htr, hfree⟩ <;> subst htr
            · simp [reqCount_nil, maxAskCount_nil]
            · obtain ⟨hr0, hm0⟩ := loopEventFree_counts hfree
              cases n with
              | zero => simp [reqCount_nil, maxAskCount_nil]
              | succ m =>
                  have hrk : reqCount (tr'.take m) = 0 :=
                    Nat.le_zero.mp (hr0 ▸ countP_take_le _ tr' m)
                  have hmk : maxAskCount (tr'.take m) = 0 :=
                    Nat.le_zero.mp (hm0 ▸ countP_take_le _ tr' m)
                  simp only [List.take_succ_cons,
                    reqCount_cons_req, maxAskCount_cons_req,
                    hrk, hmk, maxToolIterations] at *
                  omega
        | next st1 tr i1 =>
            obtain ⟨hi1, tr', htr, hfree⟩ :=
              chatStep_next_shape env cb o iter st st1 tr i1 hstep
            subst hi1
            subst htr
            rw [chatLoop_cons_next env cb o rest iter st st1 _ _ hc hstep]
            simp only [List.cons_append]
            have hIH := ih (iter + 1) st1
              (by simp only [maxToolIterations] at *; omega)
            cases n with
            | zero => simp [reqCount_nil, maxAskCount_nil]
            | succ m =>
                obtain ⟨hd1, hd2⟩ := counts_take_concat hfree
                  (chatLoop env cb rest (iter + 1) st1).trace m
                have hIHm := hIH (m - tr'.length)
                simp only [List.take_succ_cons,
                  reqCount_cons_req, maxAskCount_cons_req,
                  hd1, hd2, maxToolIterations] at *
                omega

/-- Counting requests distributes over append. -/
theorem reqCount_append (a b : List Event) :
    reqCount (a ++ b) = reqCount a + reqCount b :=
  List.countP_append _ a b

/-- A loop-event-free trace holds no max-iterations prompt. -/
theorem loopEventFree_no_maxAsk {tr : List Event} (h : loopEventFree tr)
    (k : Nat) (hm : Event.maxIterationsAsk k ∈ tr) : False := by
  have := (h _ hm).2
  simp [Event.isMaxAsk] at this

/-- When `onMaxIterations` is absent or declines, the loop makes at most
`maxToolIterations - iter` further completion requests. -/
theorem chatLoop_decline_total (env : Env) (cb : AgentCallbacks)
    (hdecl : cb.onMaxIterations = none ∨
      ∃ f, cb.onMaxIterations = some f ∧ f maxToolIterations = false) :
    ∀ (script : List CompletionOutcome) (iter : Nat) (st : AgentState),
      iter ≤ maxToolIterations →
      reqCount (chatLoop env cb script iter st).trace ≤
        maxToolIterations - iter := by
  intro script
  induction script with
  | nil =>
      intro iter st hiter
      by_cases hc : maxToolIterations ≤ iter
      · rcases hdecl with hm | ⟨f, hm, hf⟩
        · rw [chatLoop_gate_none env cb [] iter st hc hm]
          simp [reqCount_nil]
        · rw [chatLoop_gate_decline env cb [] iter st f hc hm hf]
          simp [reqCount_cons_max, reqCount_nil]
      · rw [chatLoop_no_gate_nil env cb iter st hc]
        simp [reqCount_nil]
  | cons o rest ih =>
      intro iter st hiter
      by_cases hc : maxToolIterations ≤ iter
      · rcases hdecl with hm | ⟨f, hm, hf⟩
        · rw [chatLoop_gate_none env cb (o :: rest) iter st hc hm]
          simp [reqCount_nil]
        · rw [chatLoop_gate_decline env cb (o :: rest) iter st f hc hm hf]
          simp [reqCount_cons_max, reqCount_nil]
      · cases hstep : chatStep env cb o iter st with
        | halt st1 tr outc =>
            rw [chatLoop_cons_halt env cb o rest iter st st1 tr outc hc hstep]
            have hsh := chatStep_trace_shape env cb o iter st
            rw [hstep] at hsh
            simp only [StepOut.traceOf] at hsh
            rcases hsh with htr | ⟨tr', htr, hfree⟩ <;> subst htr
            · simp [reqCount_nil]
            · have hr0 := (loopEventFree_counts hfree).1
              simp only [reqCount_cons_req, hr0, maxToolIterations] at *
              omega
        | next st1 tr i1 =>
            obtain ⟨hi1, tr', htr, hfree⟩ :=
              chatStep_next_shape env cb o iter st st1 tr i1 hstep
            subst hi1
            subst htr
            rw [chatLoop_cons_next env cb o rest iter st st1 _ _ hc hstep]
            simp only [List.cons_append]
            have hr0 := (loopEventFree_counts hfree).1
            have hIH := ih (iter + 1) st1
              (by simp only [maxToolIterations] at *; omega)
            simp only [reqCount_cons_req, reqCount_append, hr0,
              maxToolIterations] at *
            omega

/-- Every `onMaxIterations` prompt in a chat trace carries the fixed
bound `maxToolIterations`. -/
theorem chatLoop_maxAsk_payload (env : Env) (cb : AgentCallbacks) :
    ∀ (script : List CompletionOutcome) (iter : Nat) (st : AgentState)
      (k : Nat),
      Event.maxIterationsAsk k ∈ (chatLoop env cb script iter st).trace →
      k = maxToolIterations := by
  intro script
  induction script with
  | nil =>
      intro iter st k hmem
      by_cases hc : maxToolIterations ≤ iter
      · cases hm : cb.onMaxIterations with
        | none =>
            rw [chatLoop_gate_none env cb [] iter st hc hm] at hmem
            cases hmem
        | some f =>
            cases hf : f maxToolIterations
            · rw [chatLoop_gate_decline env cb [] iter st f hc hm hf] at hmem
              simp at hmem
              exact hmem
            · rw [chatLoop_gate_continue_nil env cb iter st f hc hm hf] at hmem
              simp at hmem
              exact hmem
      · rw [chatLoop_no_gate_nil env cb iter st hc] at hmem
        cases hmem
  | cons o rest ih =>
      intro iter st k hmem
      by_cases hc : maxToolIterations ≤ iter
      · cases hm : cb.onMaxIterations with
        | none =>
            rw [chatLoop_gate_none env cb (o :: rest) iter st hc hm] at hmem
            cases hmem
        | some f =>
            cases hf : f maxToolIterations
            · rw [chatLoop_gate_decline env cb (o :: rest) iter st f
                hc hm hf] at hmem
              simp at hmem
              exact hmem
            · cases hstep : chatStep env cb o 0 st with
              | halt st1 tr outc =>
                  rw [chatLoop_gate_continue_cons_halt env cb o rest iter st f
                    st1 tr outc hc hm hf hstep] at hmem
                  have hsh := chatStep_trace_shape env cb o 0 st
                  rw [hstep] at hsh
                  simp only [StepOut.traceOf] at hsh
                  rcases List.mem_cons.mp hmem with hhd | htl
                  · injection hhd
                  · rcases hsh with htr | ⟨tr', htr, hfree⟩ <;> subst htr
                    · cases htl
                    · rcases List.mem_cons.mp htl with hhd2 | htl2
                      · cases hhd2
                      · exact absurd (loopEventFree_no_maxAsk hfree k htl2)
                          not_false
              | next st1 tr i1 =>
                  obtain ⟨hi1, tr', htr, hfree⟩ :=
                    chatStep_next_shape env cb o 0 st st1 tr i1 hstep
                  subst hi1
                  subst htr
                  rw [chatLoop_gate_continue_cons_next env cb o rest iter st f
                    st1 _ _ hc hm hf hstep] at hmem
                  simp only [List.cons_append] at hmem
                  rcases List.mem_cons.mp hmem with hhd | htl
                  · injection hhd
                  · rcases List.mem_cons.mp htl with hhd2 | htl2
                    · cases hhd2
                    · rcases List.mem_append.mp htl2 with hin | hin
                      · exact absurd (loopEventFree_no_maxAsk hfree k hin)
                          not_false
                      · exact ih (0 + 1) st1 k hin
      · cases hstep : chatStep env cb o iter st with
        | halt st1 tr outc =>
            rw [chatLoop_cons_halt env cb o rest iter st st1 tr outc
              hc hstep] at hmem
            have hsh := chatStep_trace_shape env cb o iter st
            rw [hstep] at hsh
            simp only [StepOut.traceOf] at hsh
            rcases hsh with htr | ⟨tr', htr, hfree⟩ <;> subst htr
            · cases hmem
            · rcases List.mem_cons.mp hmem with hhd | htl
              · cases hhd
              · exact absurd (loopEventFree_no_maxAsk hfree k htl) not_false
        | next st1 tr i1 =>
            obtain ⟨hi1, tr', htr, hfree⟩ :=
              chatStep_next_shape env cb o iter st st1 tr i1 hstep
            subst hi1
            subst htr
            rw [chatLoop_cons_next env cb o rest iter st st1 _ _
              hc hstep] at hmem
            simp only [List.cons_append] at hmem
            rcases List.mem_cons.mp hmem with hhd | htl
            · cases hhd
            · rcases List.mem_append.mp htl with hin | hin
              · exact absurd (loopEventFree_no_maxAsk hfree k hin) not_false
              · exact ih (iter + 1) st1 k hin

/-- C6: the chat loop issues at most `maxToolIterations = 50`
completion requests per iteration round. Over every prefix of the chat
trace, the number of completion requests is at most 50 per
`onMaxIterations(50)` prompt answered plus the initial budget of 50,
and conversely each prompt is preceded by a full 50 requests — hence
any prefix containing a 51st request contains exactly one prompt, i.e.
`onMaxIterations(50)` is invoked exactly once before a 51st request is
attempted. When the callback is absent or resolves `false`, at most 50
requests are ever issued, so a further request happens only if the
callback resolves `true` (which resets the counter); and every prompt
carries exactly the bound 50. -/
theorem claim_C6_iteration_budget (env : Env) (cb : AgentCallbacks)
    (userInput : String) (script : List CompletionOutcome) (st : AgentState) :
    (∀ n : Nat,
      reqCount (((chat env cb userInput script st).trace).take n) ≤
        maxToolIterations *
          (maxAskCount (((chat env cb userInput script st).trace).take n) + 1) ∧
      maxToolIterations *
          maxAskCount (((chat env cb userInput script st).trace).take n) ≤
        reqCount (((chat env cb userInput script st).trace).take n)) ∧
    (∀ n : Nat,
      reqCount (((chat env cb userInput script st).trace).take n) =
        maxToolIterations + 1 →
      maxAskCount (((chat env cb userInput script st).trace).take n) = 1) ∧
    ((cb.onMaxIterations = none ∨
        ∃ f, cb.onMaxIterations = some f ∧ f maxToolIterations = false) →
      reqCount (chat env cb userInput script st).trace ≤ maxToolIterations) ∧
    (∀ k, Event.maxIterationsAsk k ∈ (chat env cb userInput script st).trace →
      k = maxToolIterations) := by
  simp only [chat]
  refine ⟨fun n => ?_, fun n h => ?_, fun hdecl => ?_, fun k hk => ?_⟩
  · have h := chatLoop_count_invariant env cb script 0
      (chatStartState userInput st) (Nat.zero_le _) n
    simp only [maxToolIterations] at *
    omega
  · have h2 := chatLoop_count_invariant env cb script 0
      (chatStartState userInput st) (Nat.zero_le _) n
    simp only [maxToolIterations] at *
    omega
  · have h := chatLoop_decline_total env cb hdecl script 0
      (chatStartState userInput st) (Nat.zero_le _)
    simpa using h
  · exact chatLoop_maxAsk_payload env cb script 0
      (chatStartState userInput st) k hk

/-- A concrete safe tool call used for the C6 scenario. -/
def taskCall : ToolCall :=
  { id := "1", type := "function",
    function := { name := "create_tasks", arguments := "" } }

/-- Agent callbacks wiring only an always-continue `onMaxIterations`. -/
def cbMax : AgentCallbacks := { onMaxIterations := some (fun _ => true) }

/-- A script of 51 consecutive tool-triggering completions. -/
def script51 : List CompletionOutcome :=
  List.replicate 51 (CompletionOutcome.success { tool_calls := some [taskCall] })

/-- C6 witness: in a run with 51 consecutive tool-triggering
completions and an authorizing callback, the trace prefix holding all
51 requests contains exactly one `onMaxIterations` prompt. -/
theorem claim_C6_iteration_budget_witness :
    maxAskCount (((chat sampleEnv cbMax "go" script51
      { messages := [] }).trace).take 103) = 1 :=
  (claim_C6_iteration_budget sampleEnv cbMax "go" script51
    { messages := [] }).2.1 103 (by decide)

end CobotCLI
